import Mathlib

/-!
# Verification of the TTS Recording App against its specification

Shallow embedding of the recording application's core routines:

* `utils/audio_utils.py` — `trim_silence_numpy`, the silence-trimming routine;
* `core/data_manager.py` — the `DataManager` CSV/session state machine;
* `core/audio_recorder.py` — `start_recording` / `_record_audio` / callbacks /
  `stop_recording` of `AudioRecorder`;
* `core/playback_worker.py` — the chunked playback loop of `PlaybackWorker`;
* `ui/main_window.py` — `upload_recording`.

Numbers are embedded as `ℚ` (audio samples, durations) and `ℤ`/`ℕ`;
audio buffers are Lean lists.  Effectful operations (file system, HTTP,
Qt signals) are made explicit: the file system is an oracle function,
emitted Qt signals are returned as an event list, file writes are
returned as a list of (path, content) pairs, and the single HTTP POST of
`upload_recording` is an oracle describing the response.
-/

namespace TTSApp

/-! ## `utils/audio_utils.py` — `trim_silence_numpy`

The Python routine receives a mono NumPy array.  At every call site in
the application (`MainWindow._perform_trim_on_file`) the array comes
from `soundfile.read`, which yields floating-point samples, so the
embedding works over `List ℚ` and omits the integer-normalisation
branch.  The source converts the dB threshold to a linear amplitude
threshold by `10 ** (threshold_db / 20)`; that conversion is a
strictly monotone bijection onto the positive reals, so the embedding
takes the already-converted linear `amplitude_threshold` as the
parameter `tau`. -/

/-- Indices of `np.where(np.abs(audio_data) > amplitude_threshold)[0]`:
positions of the samples whose absolute value exceeds the threshold. -/
def nonSilentIndices (tau : ℚ) (a : List ℚ) : List ℕ :=
  (List.range a.length).filter (fun i => decide (tau < |a.getD i 0|))

/-- `trim_silence_numpy` of `utils/audio_utils.py`: trim leading and
trailing silence, keeping `padding_ms` of padding; returns the trimmed
samples and their duration `len / sample_rate` in seconds.  Empty input
is returned unchanged with duration `0`; an all-silent input yields the
empty array with duration `0`. -/
def trim_silence_numpy (a : List ℚ) (sample_rate : ℕ) (tau : ℚ) (padding_ms : ℕ) :
    List ℚ × ℚ :=
  if a.length = 0 then (a, 0)
  else
    let idxs := nonSilentIndices tau a
    if idxs = [] then ([], 0)
    else
      let start0 := idxs.headD 0
      let end0 := idxs.getLastD 0
      let padding_samples := padding_ms * sample_rate / 1000
      let start_idx := start0 - padding_samples
      let end_idx := min (a.length - 1) (end0 + padding_samples)
      let trimmed := (a.drop start_idx).take (end_idx + 1 - start_idx)
      (trimmed, (trimmed.length : ℚ) / (sample_rate : ℚ))

/-! ## `core/data_manager.py` — `DataManager`

The pandas dataframe is embedded as a rectangular table: a list of
column names and a list of rows, each row a list of cell values.  Cell
values carry the three kinds of data the application stores: booleans,
strings and numbers. -/

/-- A dataframe cell value. -/
inductive Value where
  | vBool : Bool → Value
  | vStr : String → Value
  | vRat : ℚ → Value
deriving DecidableEq, Repr

/-- A pandas dataframe: column names plus rows of cells, each row
parallel to `cols`. -/
structure DataFrame where
  cols : List String
  rows : List (List Value)
deriving DecidableEq, Repr

/-- Qt signals emitted by `DataManager`, recorded as values. -/
inductive Event where
  | errorOccurred : String → Event
  | dataLoaded : DataFrame → Event
  | currentItemChanged : List Value → Event
  | dataSaved : String → Event
deriving DecidableEq, Repr

/-- The mutable state of a `DataManager` instance (`__init__`). -/
structure DMState where
  base_dir : String
  output_dir : Option String
  dataframe : Option DataFrame
  current_index : ℤ
  total_audio_count : ℚ
  total_duration : ℚ
  csv_path : Option String
deriving DecidableEq, Repr

/-- `DataManager.__init__` field values (before `_load_settings`). -/
def DMState.init : DMState :=
  { base_dir := "data", output_dir := none, dataframe := none,
    current_index := -1, total_audio_count := 0, total_duration := 0,
    csv_path := none }

/-- `self.required_columns`. -/
def required_columns : List String := ["id", "text"]

/-- `self.optional_columns` (a Python `dict`, iterated in insertion
order). -/
def optional_columns : List (String × Value) :=
  [("recorded", Value.vBool false),
   ("audio_path_48k", Value.vStr ""),
   ("audio_path_8k", Value.vStr ""),
   ("duration", Value.vRat 0),
   ("trimmed", Value.vBool false)]

/-- `df[col] = default_value` on a dataframe lacking `col`: append the
column name and give every row the default value. -/
def addColumn (df : DataFrame) (col : String) (v : Value) : DataFrame :=
  { cols := df.cols ++ [col], rows := df.rows.map (fun r => r ++ [v]) }

/-- The `for col, default_value in self.optional_columns.items()` loop
of `load_csv`, generalised over the column list. -/
def addOptionalColumns (cs : List (String × Value)) (df : DataFrame) : DataFrame :=
  cs.foldl (fun acc kv => if acc.cols.contains kv.1 then acc else addColumn acc kv.1 kv.2) df

/-- Cell of `row` in the column named `col` (given the frame's column
list), as pandas `row[col]` / `row.get(col, default)`. -/
def cellAt (cols : List String) (row : List Value) (col : String) : Option Value :=
  row[cols.indexOf col]?

/-- `df['recorded'].sum()`: number of rows whose `recorded` cell is the
boolean `True`. -/
def recordedSum (df : DataFrame) : ℚ :=
  ((df.rows.filter (fun r => cellAt df.cols r "recorded" = some (Value.vBool true))).length : ℚ)

/-- `df['duration'].sum()`: sum of the numeric `duration` cells. -/
def durationSum (df : DataFrame) : ℚ :=
  (df.rows.map (fun r =>
    match cellAt df.cols r "duration" with
    | some (Value.vRat q) => q
    | _ => 0)).sum

/-- Result of reading path `p` from the file system, for `load_csv`:
`none` when the file does not exist (`os.path.exists` fails), `some
none` when `pd.read_csv` raises, and `some (some df)` when the CSV
parses to the table `df`. -/
def CsvFS : Type := String → Option (Option DataFrame)

/-- `DataManager.load_csv`.  Returns the Python return value, the
post-state, and the emitted signals. -/
def load_csv (st : DMState) (fs : CsvFS) (file_path : Option String) :
    Bool × DMState × List Event :=
  match file_path with
  | none => (false, st, [])
  | some fp =>
    match fs fp with
    | none => (false, st, [Event.errorOccurred ("File not found: " ++ fp)])
    | some none => (false, st, [Event.errorOccurred "Error loading CSV"])
    | some (some df0) =>
      if required_columns.all (fun c => df0.cols.contains c) then
        let df := addOptionalColumns optional_columns df0
        let st' : DMState :=
          { st with dataframe := some df, csv_path := some fp, current_index := 0,
                    total_audio_count := recordedSum df,
                    total_duration := durationSum df }
        (true, st',
          [Event.dataLoaded df] ++
            (if df.rows.isEmpty then [] else [Event.currentItemChanged (df.rows.headD [])]))
      else
        (false, st, [Event.errorOccurred "Required column missing from CSV"])

/-- `DataManager.save_csv`.  Returns the Python return value, the
post-state, the file writes performed (path, content), and the emitted
signals. -/
def save_csv (st : DMState) (file_path : Option String) :
    Bool × DMState × List (String × DataFrame) × List Event :=
  match st.dataframe with
  | none => (false, st, [], [Event.errorOccurred "No data to save"])
  | some df =>
    match file_path.orElse (fun _ => st.csv_path) with
    | none => (false, st, [], [Event.errorOccurred "No save path specified"])
    | some p =>
      (true, { st with csv_path := some p }, [(p, df)], [Event.dataSaved p])

/-- The `for key, value in data_dict.items()` loop of
`update_current_item`: set each listed cell of `row`, skipping keys
that are not existing columns. -/
def applyDict (cols : List String) (row : List Value) (data_dict : List (String × Value)) :
    List Value :=
  data_dict.foldl
    (fun r kv => if cols.contains kv.1 then r.set (cols.indexOf kv.1) kv.2 else r) row

/-- `DataManager.update_current_item`.  Returns the Python return
value, the post-state and the file writes performed (via `save_csv`). -/
def update_current_item (st : DMState) (data_dict : List (String × Value)) :
    Bool × DMState × List (String × DataFrame) :=
  match st.dataframe with
  | none => (false, st, [])
  | some df =>
    if df.rows.isEmpty then (false, st, [])
    else if 0 ≤ st.current_index ∧ st.current_index < (df.rows.length : ℤ) then
      let i := st.current_index.toNat
      let row' := applyDict df.cols (df.rows.getD i []) data_dict
      let df' : DataFrame := { df with rows := df.rows.set i row' }
      let st1 : DMState :=
        { st with dataframe := some df',
                  total_audio_count := recordedSum df',
                  total_duration := durationSum df' }
      match st.csv_path with
      | some _ =>
        let r := save_csv st1 none
        (true, r.2.1, r.2.2.1)
      | none => (true, st1, [])
    else (false, st, [])

/-- `DataManager.next_item`. -/
def next_item (st : DMState) : Bool × DMState × List Event :=
  match st.dataframe with
  | none => (false, st, [])
  | some df =>
    if df.rows.isEmpty then (false, st, [])
    else if st.current_index < (df.rows.length : ℤ) - 1 then
      let st' := { st with current_index := st.current_index + 1 }
      (true, st', [Event.currentItemChanged (df.rows.getD st'.current_index.toNat [])])
    else (false, st, [])

/-- `DataManager.previous_item`. -/
def previous_item (st : DMState) : Bool × DMState × List Event :=
  match st.dataframe with
  | none => (false, st, [])
  | some df =>
    if df.rows.isEmpty then (false, st, [])
    else if 0 < st.current_index then
      let st' := { st with current_index := st.current_index - 1 }
      (true, st', [Event.currentItemChanged (df.rows.getD st'.current_index.toNat [])])
    else (false, st, [])

/-- `DataManager.get_current_item`. -/
def get_current_item (st : DMState) : Option (List Value) :=
  match st.dataframe with
  | none => none
  | some df =>
    if df.rows.isEmpty then none
    else if 0 ≤ st.current_index ∧ st.current_index < (df.rows.length : ℤ) then
      some (df.rows.getD st.current_index.toNat [])
    else none

/-- `DataManager.create_output_directory`.  `date_str` and `timestamp`
are the values of `now.strftime("%Y%m%d")` and `now.strftime("%H%M%S")`
at the moment of the call; `mkdirOk` tells whether the `os.makedirs`
calls succeed.  Returns the Python return value, the post-state, the
list of directories created, and the emitted signals. -/
def create_output_directory (st : DMState) (language style speaker : String)
    (date_str timestamp : String) (mkdirOk : Bool) :
    Option String × DMState × List String × List Event :=
  if mkdirOk then
    let dir_name := date_str ++ "_" ++ language ++ "_" ++ style ++ "_" ++ speaker ++ "_" ++ timestamp
    let dir_path := st.base_dir ++ "/" ++ dir_name
    (some dir_path, { st with output_dir := some dir_path },
      [dir_path, dir_path ++ "/48khz", dir_path ++ "/8khz"], [])
  else
    (none, st, [], [Event.errorOccurred "Failed to create output directory"])

/-! ## `core/audio_recorder.py` — `AudioRecorder`

Audio chunks delivered by the `sounddevice` callbacks are embedded as
lists of integer samples.  `_record_audio` is split into the list of
input streams it opens (device, sample rate, and which frame buffer the
stream's callback feeds) and the callbacks themselves, which are pure
state transformers. -/

/-- One captured audio chunk (the `indata.copy()` of a callback). -/
def Chunk : Type := List ℤ

/-- The mutable state of an `AudioRecorder` instance (`__init__`). -/
structure RecState where
  is_recording : Bool
  frames_48k : List Chunk
  frames_8k : List Chunk
  device_48k : Option ℤ
  device_8k : Option ℤ
  filename_48k : Option String
  filename_8k : Option String
  rate_48k : ℕ
  rate_8k : ℕ
  enable_8k : Bool

/-- `AudioRecorder.__init__` field values. -/
def RecState.init : RecState :=
  { is_recording := false, frames_48k := [], frames_8k := [],
    device_48k := none, device_8k := none,
    filename_48k := none, filename_8k := none,
    rate_48k := 48000, rate_8k := 8000, enable_8k := false }

/-- `AudioRecorder.start_recording`: state update performed before the
recorder thread is started. -/
def start_recording (st : RecState) (device_48k_idx device_8k_idx : Option ℤ)
    (filename_48k filename_8k : Option String) : RecState :=
  if st.is_recording then st
  else
    let st1 := { st with device_48k := device_48k_idx, frames_48k := [],
                         filename_48k := filename_48k }
    let st2 :=
      if st.enable_8k then
        { st1 with device_8k := device_8k_idx, frames_8k := [],
                   filename_8k := filename_8k }
      else
        { st1 with device_8k := none, filename_8k := none }
    { st2 with is_recording := true }

/-- Which frame buffer a stream's callback appends to. -/
inductive BufTarget where
  | b48
  | b8
deriving DecidableEq, Repr

/-- An opened `sounddevice.InputStream`: device, sample rate, and the
buffer its callback feeds. -/
structure InStream where
  device : Option ℤ
  samplerate : ℕ
  target : BufTarget
deriving DecidableEq, Repr

/-- The input streams `AudioRecorder._record_audio` opens: the 48 kHz
stream always, and the 8 kHz stream only when `enable_8k` is set and an
8 kHz device is present. -/
def record_audio_streams (st : RecState) : List InStream :=
  let s48 : InStream := ⟨st.device_48k, st.rate_48k, BufTarget.b48⟩
  if st.enable_8k ∧ st.device_8k ≠ none then
    [s48, ⟨st.device_8k, st.rate_8k, BufTarget.b8⟩]
  else [s48]

/-- `AudioRecorder._callback_48k` (its effect on the frame buffers):
append the captured chunk to `frames_48k`. -/
def callback_48k (st : RecState) (indata : Chunk) : RecState :=
  { st with frames_48k := st.frames_48k ++ [indata] }

/-- `AudioRecorder._callback_8k`: append the captured chunk to
`frames_8k`. -/
def callback_8k (st : RecState) (indata : Chunk) : RecState :=
  { st with frames_8k := st.frames_8k ++ [indata] }

/-- The WAV files `AudioRecorder.stop_recording` saves: `(path, frames,
sample rate)` for each of the 48 kHz and 8 kHz buffers that has a
filename and captured frames. -/
def stop_recording_saves (st : RecState) : List (String × List Chunk × ℕ) :=
  (match st.filename_48k with
   | some f => if st.frames_48k.isEmpty then [] else [(f, st.frames_48k, st.rate_48k)]
   | none => []) ++
  (match st.filename_8k with
   | some f => if st.frames_8k.isEmpty then [] else [(f, st.frames_8k, st.rate_8k)]
   | none => [])

/-- The polling loop of `AudioRecorder._record_audio`
(`while self.is_recording: sleep(0.1); if not self.is_recording: break`).
`flag t` is the value the `t`-th read of `self.is_recording` returns;
each loop iteration reads the flag twice (the `while` condition and the
post-sleep check).  Returns `some t` with the index of the read that
observed `false` and caused the exit, or `none` when the fuel runs out
with the flag still `true`. -/
def record_poll_loop (flag : ℕ → Bool) : ℕ → ℕ → Option ℕ
  | 0, _ => none
  | fuel + 1, t =>
    if flag t = false then some t
    else if flag (t + 1) = false then some (t + 1)
    else record_poll_loop flag fuel (t + 2)

/-! ## `core/playback_worker.py` — `PlaybackWorker.run`

The loop is driven by an oracle giving, for each iteration `t`, the
values read from the shared stop/pause flags and the pending seek
request (`int(seek_seconds * sample_rate)` is modelled as the resulting
sample index). -/

/-- Per-iteration reads of the playback loop's shared state. -/
structure PBEnv where
  stopFlag : ℕ → Bool
  pausedFlag : ℕ → Bool
  seekTo : ℕ → Option ℕ

/-- The `while` loop of `PlaybackWorker.run`.  `audio` is the sample
array, `sr` the sample rate (the chunk size is `int(sr * 0.1)` samples),
`t` the iteration counter, `cur` the value of `current_sample`, and
`written` the samples written to the output stream so far.  Recursion is
fuel-bounded since a permanently paused loop never terminates. -/
def playback_run (env : PBEnv) (audio : List ℤ) (sr : ℕ) :
    ℕ → ℕ → ℕ → List ℤ → ℕ × List ℤ
  | 0, _, cur, written => (cur, written)
  | fuel + 1, t, cur, written =>
    if env.stopFlag t = true ∨ audio.length ≤ cur then (cur, written)
    else if env.pausedFlag t = true then
      playback_run env audio sr fuel (t + 1) cur written
    else
      let cur1 := match env.seekTo t with
                  | some s => s
                  | none => cur
      let endS := min (cur1 + sr / 10) audio.length
      playback_run env audio sr fuel (t + 1) endS
        (written ++ (audio.drop cur1).take (endS - cur1))

/-! ## `ui/main_window.py` — `MainWindow.upload_recording`

The single `requests.post` call is an oracle describing its outcome:
the response is ok, the response is not ok, or the request raises.  The
existence checks of `os.path` are an oracle over paths.  The method's
effect on the `DataManager` is returned together with the Python return
value and the number of HTTP POST requests attempted. -/

/-- Outcome of the `requests.post` call. -/
inductive UploadResult where
  | ok
  | notOk
  | raised
deriving DecidableEq, Repr

/-- `row.get(col, '')` for a string-valued column. -/
def row_get_str (cols : List String) (row : List Value) (col : String) : String :=
  match cellAt cols row col with
  | some (Value.vStr s) => s
  | _ => ""

/-- `MainWindow.upload_recording`: returns the Python return value, the
`DataManager` state afterwards, and the number of HTTP POSTs attempted. -/
def upload_recording (dm : DMState) (fileExists : String → Bool) (resp : UploadResult) :
    Bool × DMState × ℕ :=
  match dm.dataframe with
  | none => (false, dm, 0)
  | some df =>
    match get_current_item dm with
    | none => (false, dm, 0)
    | some row =>
      let p48 := row_get_str df.cols row "audio_path_48k"
      if p48 = "" ∨ fileExists p48 = false then (false, dm, 0)
      else
        match resp with
        | UploadResult.ok =>
          (true, (update_current_item dm [("uploaded", Value.vBool true)]).2.1, 1)
        | UploadResult.notOk => (false, dm, 1)
        | UploadResult.raised => (false, dm, 1)

/-- A rectangular three-column dataframe used to exercise
`update_current_item` and `upload_recording`. -/
def dfUpd : DataFrame :=
  ⟨["id", "text", "recorded", "audio_path_48k"],
   [[Value.vStr "1", Value.vStr "a", Value.vBool false, Value.vStr "p1.wav"],
    [Value.vStr "2", Value.vStr "b", Value.vBool false, Value.vStr "p2.wav"]]⟩

/-- A manager state holding `dfUpd` at index `0` with a CSV path. -/
def dmUpd : DMState :=
  { DMState.init with dataframe := some dfUpd, current_index := 0,
                      csv_path := some "d.csv" }

/-- A CSV file carrying only the two required columns. -/
def dfIdTextOnly : DataFrame :=
  ⟨["id", "text"], [[Value.vStr "1", Value.vStr "hello"]]⟩

/-- A file system exposing `dfIdTextOnly` under `data.csv`. -/
def fsIdTextOnly : CsvFS :=
  fun p => if p = "data.csv" then some (some dfIdTextOnly) else none

/-- A concrete two-row dataframe and manager state exercising the
`next_item` / `previous_item` theorem. -/
def dfTwoRows : DataFrame :=
  ⟨["id", "text"], [[Value.vStr "1"], [Value.vStr "2"]]⟩

/-- A manager state holding `dfTwoRows` at index `0`. -/
def dmTwoRows : DMState :=
  { DMState.init with dataframe := some dfTwoRows, current_index := 0 }

/-! ## Helper lemmas -/

theorem mem_nonSilentIndices {tau : ℚ} {a : List ℚ} {i : ℕ} :
    i ∈ nonSilentIndices tau a ↔ i < a.length ∧ tau < |a.getD i 0| := by
  simp [nonSilentIndices, List.mem_filter, List.mem_range]

theorem nonSilentIndices_sorted (tau : ℚ) (a : List ℚ) :
    (nonSilentIndices tau a).Pairwise (· < ·) :=
  List.Pairwise.sublist (List.filter_sublist _) (List.pairwise_lt_range a.length)

theorem headD_mem (l : List ℕ) (d : ℕ) (h : l ≠ []) : l.headD d ∈ l := by
  cases l with
  | nil => exact absurd rfl h
  | cons x t => simp

theorem headD_le (l : List ℕ) (d : ℕ) (hs : l.Pairwise (· < ·)) :
    ∀ y ∈ l, l.headD d ≤ y := by
  cases l with
  | nil => simp
  | cons x t =>
    intro y hy
    rcases List.mem_cons.1 hy with rfl | h
    · simp
    · have := (List.pairwise_cons.1 hs).1 y h
      simp only [List.headD_cons]
      omega

theorem getLastD_mem : ∀ (l : List ℕ) (d : ℕ), l ≠ [] → l.getLastD d ∈ l
  | [x], _, _ => by simp
  | x :: y :: t, d, _ => by
    rw [List.getLastD_cons]
    exact List.mem_cons_of_mem _ (getLastD_mem (y :: t) x (by simp))

theorem le_getLastD : ∀ (l : List ℕ) (d : ℕ), l.Pairwise (· < ·) →
    ∀ y ∈ l, y ≤ l.getLastD d
  | [x], d, _, y, hy => by
    simp only [List.mem_singleton] at hy
    subst hy
    simp [List.getLastD]
  | x :: y :: t, d, hs, z, hz => by
    rw [List.getLastD_cons]
    have hs' := List.pairwise_cons.1 hs
    rcases List.mem_cons.1 hz with rfl | h
    · have hlt := hs'.1 y (by simp)
      have h2 := le_getLastD (y :: t) z hs'.2 y (by simp)
      omega
    · exact le_getLastD (y :: t) x hs'.2 _ h

theorem slice_getD (a : List ℚ) (s n k : ℕ) (hk : k < n) :
    ((a.drop s).take n).getD k 0 = a.getD (s + k) 0 := by
  rw [List.getD_eq_getElem?_getD, List.getD_eq_getElem?_getD, List.getElem?_take,
    if_pos hk, List.getElem?_drop]

theorem nonSilentIndices_length_pos {tau : ℚ} {a : List ℚ}
    (h : nonSilentIndices tau a ≠ []) : 0 < a.length := by
  by_contra hlen
  have h0 : a.length = 0 := by omega
  apply h
  simp [nonSilentIndices, h0]

/-- Unfolding of `trim_silence_numpy` in the branch where a non-silent
sample exists. -/
theorem trim_eq_of_nonSilent (a : List ℚ) (sr : ℕ) (tau : ℚ) (pm : ℕ)
    (hne : nonSilentIndices tau a ≠ []) :
    trim_silence_numpy a sr tau pm =
      ((a.drop ((nonSilentIndices tau a).headD 0 - pm * sr / 1000)).take
        (min (a.length - 1) ((nonSilentIndices tau a).getLastD 0 + pm * sr / 1000) + 1 -
          ((nonSilentIndices tau a).headD 0 - pm * sr / 1000)),
       (((a.drop ((nonSilentIndices tau a).headD 0 - pm * sr / 1000)).take
        (min (a.length - 1) ((nonSilentIndices tau a).getLastD 0 + pm * sr / 1000) + 1 -
          ((nonSilentIndices tau a).headD 0 - pm * sr / 1000))).length : ℚ) / (sr : ℚ)) := by
  have hlen : a.length ≠ 0 := by
    have := nonSilentIndices_length_pos hne
    omega
  rw [trim_silence_numpy, if_neg hlen]
  simp only [hne, if_neg (by exact hne)]
  rfl

/-! ## Claim theorems -/

/-- C1: for every mono audio array containing a sample whose amplitude
exceeds the threshold, `trim_silence_numpy` returns the contiguous
slice of the input from index `max (0, first - padding_samples)`
(natural subtraction `first - pad` below) through index
`min (len - 1, last + padding_samples)` inclusive, where
`padding_samples = ⌊padding_ms * sample_rate / 1000⌋` and
`first` / `last` are the first and last indices whose amplitude exceeds
the threshold; every sample exceeding the threshold is retained in the
output, and the returned duration is the output length divided by the
sample rate. -/
theorem trim_silence_slice_spec (a : List ℚ) (sr : ℕ) (tau : ℚ) (pm : ℕ) (first last : ℕ)
    (hfm : first ∈ nonSilentIndices tau a)
    (hfmin : ∀ j ∈ nonSilentIndices tau a, first ≤ j)
    (hlm : last ∈ nonSilentIndices tau a)
    (hlmax : ∀ j ∈ nonSilentIndices tau a, j ≤ last) :
    (trim_silence_numpy a sr tau pm).1 =
      (a.drop (first - pm * sr / 1000)).take
        (min (a.length - 1) (last + pm * sr / 1000) + 1 - (first - pm * sr / 1000))
    ∧ (∀ i, i < a.length → tau < |a.getD i 0| →
        (trim_silence_numpy a sr tau pm).1.getD (i - (first - pm * sr / 1000)) 0 = a.getD i 0)
    ∧ (trim_silence_numpy a sr tau pm).2 =
        ((trim_silence_numpy a sr tau pm).1.length : ℚ) / (sr : ℚ) := by
  have hne : nonSilentIndices tau a ≠ [] := by
    intro h
    rw [h] at hfm
    exact absurd hfm (List.not_mem_nil first)
  have hsorted := nonSilentIndices_sorted tau a
  have hhead : (nonSilentIndices tau a).headD 0 = first := by
    have h1 := headD_le _ 0 hsorted first hfm
    have h2 := hfmin _ (headD_mem _ 0 hne)
    omega
  have hlast : (nonSilentIndices tau a).getLastD 0 = last := by
    have h1 := le_getLastD _ 0 hsorted last hlm
    have h2 := hlmax _ (getLastD_mem _ 0 hne)
    omega
  have heq := trim_eq_of_nonSilent a sr tau pm hne
  rw [hhead, hlast] at heq
  have hfirst_lt : first < a.length := (mem_nonSilentIndices.1 hfm).1
  have hlast_lt : last < a.length := (mem_nonSilentIndices.1 hlm).1
  have hfl : first ≤ last := hlmax _ hfm
  refine ⟨by rw [heq], ?_, by rw [heq]⟩
  intro i hi hx
  have him : i ∈ nonSilentIndices tau a := mem_nonSilentIndices.2 ⟨hi, hx⟩
  have hif : first ≤ i := hfmin _ him
  have hil : i ≤ last := hlmax _ him
  rw [heq]
  have hs_le : first - pm * sr / 1000 ≤ i := by omega
  have hk : i - (first - pm * sr / 1000) <
      min (a.length - 1) (last + pm * sr / 1000) + 1 - (first - pm * sr / 1000) := by
    omega
  rw [slice_getD _ _ _ _ hk]
  congr 1
  omega

/-- C1 witness: the theorem applied to the concrete array
`[0, 2, 0, 3, 0]` with linear threshold `1`, sample rate `1000` and
padding `1 ms` (one padding sample): the non-silent span is `[1, 3]`,
padded to `[0, 4]`, so the whole array is returned. -/
theorem trim_silence_slice_spec_witness :
    (trim_silence_numpy [0, 2, 0, 3, 0] 1000 1 1).1 =
      (([0, 2, 0, 3, 0] : List ℚ).drop (1 - 1 * 1000 / 1000)).take
        (min (([0, 2, 0, 3, 0] : List ℚ).length - 1) (3 + 1 * 1000 / 1000) + 1 - (1 - 1 * 1000 / 1000))
    ∧ (∀ i, i < ([0, 2, 0, 3, 0] : List ℚ).length → (1 : ℚ) < |([0, 2, 0, 3, 0] : List ℚ).getD i 0| →
        (trim_silence_numpy [0, 2, 0, 3, 0] 1000 1 1).1.getD (i - (1 - 1 * 1000 / 1000)) 0 =
          ([0, 2, 0, 3, 0] : List ℚ).getD i 0)
    ∧ (trim_silence_numpy [0, 2, 0, 3, 0] 1000 1 1).2 =
        ((trim_silence_numpy [0, 2, 0, 3, 0] 1000 1 1).1.length : ℚ) / (1000 : ℚ) :=
  trim_silence_slice_spec [0, 2, 0, 3, 0] 1000 1 1 1 3
    (by decide) (by decide) (by decide) (by decide)

/-- When the first non-silent sample is within the padding of index `0`
and the last non-silent sample is within the padding of the final index,
trimming returns the whole array. -/
theorem trim_whole (b : List ℚ) (sr : ℕ) (tau : ℚ) (pm : ℕ)
    (hne : nonSilentIndices tau b ≠ [])
    (hhead : (nonSilentIndices tau b).headD 0 ≤ pm * sr / 1000)
    (hlast : b.length - 1 ≤ (nonSilentIndices tau b).getLastD 0 + pm * sr / 1000) :
    trim_silence_numpy b sr tau pm = (b, (b.length : ℚ) / (sr : ℚ)) := by
  have hpos := nonSilentIndices_length_pos hne
  have heq := trim_eq_of_nonSilent b sr tau pm hne
  have hs0 : (nonSilentIndices tau b).headD 0 - pm * sr / 1000 = 0 := by omega
  have he0 : min (b.length - 1) ((nonSilentIndices tau b).getLastD 0 + pm * sr / 1000) =
      b.length - 1 := by omega
  rw [hs0, he0] at heq
  simp only [List.drop_zero, Nat.sub_zero] at heq
  have hlen : b.length - 1 + 1 = b.length := by omega
  rw [hlen, List.take_length] at heq
  exact heq

/-- C10: `trim_silence_numpy` is idempotent — applying it to its own
returned audio yields that same audio and the same duration, for every
input array, threshold and padding. -/
theorem trim_silence_idempotent (a : List ℚ) (sr : ℕ) (tau : ℚ) (pm : ℕ) :
    trim_silence_numpy ((trim_silence_numpy a sr tau pm).1) sr tau pm =
      trim_silence_numpy a sr tau pm := by
  by_cases h0 : a.length = 0
  · have ha : a = [] := List.length_eq_zero.1 h0
    subst ha
    rfl
  by_cases h1 : nonSilentIndices tau a = []
  · have heqa : trim_silence_numpy a sr tau pm = ([], 0) := by
      rw [trim_silence_numpy, if_neg h0]
      simp [h1]
    rw [heqa]
    rfl
  have hsorted := nonSilentIndices_sorted tau a
  have hfm := headD_mem _ 0 h1
  have hlm := getLastD_mem _ 0 h1
  have hfl : (nonSilentIndices tau a).headD 0 ≤ (nonSilentIndices tau a).getLastD 0 :=
    le_getLastD _ 0 hsorted _ hfm
  obtain ⟨hfirst_lt, hfx⟩ := mem_nonSilentIndices.1 hfm
  obtain ⟨hlast_lt, hlx⟩ := mem_nonSilentIndices.1 hlm
  have heqa := trim_eq_of_nonSilent a sr tau pm h1
  obtain ⟨first, hF⟩ : ∃ x, (nonSilentIndices tau a).headD 0 = x := ⟨_, rfl⟩
  obtain ⟨last, hL⟩ : ∃ x, (nonSilentIndices tau a).getLastD 0 = x := ⟨_, rfl⟩
  obtain ⟨pad, hP⟩ : ∃ x, pm * sr / 1000 = x := ⟨_, rfl⟩
  rw [hF, hL, hP] at heqa
  rw [hF] at hfx
  rw [hL] at hlx
  rw [hF, hL] at hfl
  have hlast_le : last ≤ min (a.length - 1) (last + pad) := by omega
  have hfirst_le : first ≤ min (a.length - 1) (last + pad) := by omega
  have hlen_out :
      ((a.drop (first - pad)).take
        (min (a.length - 1) (last + pad) + 1 - (first - pad))).length =
      min (a.length - 1) (last + pad) + 1 - (first - pad) := by
    rw [List.length_take, List.length_drop]
    omega
  have hj0 : first - (first - pad) ∈ nonSilentIndices tau
      ((a.drop (first - pad)).take (min (a.length - 1) (last + pad) + 1 - (first - pad))) := by
    rw [mem_nonSilentIndices, hlen_out]
    constructor
    · omega
    · rw [slice_getD a (first - pad) _ _ (by omega)]
      have : first - pad + (first - (first - pad)) = first := by omega
      rw [this]
      exact hfx
  have hj1 : last - (first - pad) ∈ nonSilentIndices tau
      ((a.drop (first - pad)).take (min (a.length - 1) (last + pad) + 1 - (first - pad))) := by
    rw [mem_nonSilentIndices, hlen_out]
    constructor
    · omega
    · rw [slice_getD a (first - pad) _ _ (by omega)]
      have : first - pad + (last - (first - pad)) = last := by omega
      rw [this]
      exact hlx
  have hne' : nonSilentIndices tau
      ((a.drop (first - pad)).take (min (a.length - 1) (last + pad) + 1 - (first - pad))) ≠ [] :=
    List.ne_nil_of_mem hj0
  have hsorted' := nonSilentIndices_sorted tau
    ((a.drop (first - pad)).take (min (a.length - 1) (last + pad) + 1 - (first - pad)))
  have hh' : (nonSilentIndices tau
      ((a.drop (first - pad)).take
        (min (a.length - 1) (last + pad) + 1 - (first - pad)))).headD 0 ≤ first - (first - pad) :=
    headD_le _ 0 hsorted' _ hj0
  have hl' : last - (first - pad) ≤ (nonSilentIndices tau
      ((a.drop (first - pad)).take
        (min (a.length - 1) (last + pad) + 1 - (first - pad)))).getLastD 0 :=
    le_getLastD _ 0 hsorted' _ hj1
  have hfinal := trim_whole
    ((a.drop (first - pad)).take (min (a.length - 1) (last + pad) + 1 - (first - pad)))
    sr tau pm hne' (by rw [hP]; omega) (by rw [hP, hlen_out]; omega)
  rw [heqa]
  exact hfinal

/-- C4: whenever `load_csv` fails — the path is `None`, the file does
not exist, reading raises, or a required column is missing — it returns
`False` and the whole `DataManager` state (in particular `dataframe`,
`csv_path`, `current_index`, `total_audio_count`, `total_duration`) is
exactly what it was before the call. -/
theorem load_csv_failure_preserves_state (st : DMState) (fs : CsvFS) (fp : Option String)
    (hfail : fp = none
      ∨ (∃ p, fp = some p ∧ fs p = none)
      ∨ (∃ p, fp = some p ∧ fs p = some none)
      ∨ (∃ p df0, fp = some p ∧ fs p = some (some df0) ∧
          required_columns.all (fun c => df0.cols.contains c) = false)) :
    (load_csv st fs fp).1 = false ∧ (load_csv st fs fp).2.1 = st := by
  rcases hfail with rfl | ⟨p, rfl, hp⟩ | ⟨p, rfl, hp⟩ | ⟨p, df0, rfl, hp, hreq⟩
  · simp [load_csv]
  · simp [load_csv, hp]
  · simp [load_csv, hp]
  · have hreq' : ¬ ∀ x ∈ required_columns, x ∈ df0.cols := by
      intro hall
      have hall' : required_columns.all (fun c => df0.cols.contains c) = true := by
        rw [List.all_eq_true]
        intro c hc
        simpa using hall c hc
      rw [hall'] at hreq
      cases hreq
    simp [load_csv, hp, hreq']

/-- C4 witness: a `None` path, a missing file, an unreadable file and a
file lacking the `text` column all leave the initial state intact. -/
theorem load_csv_failure_preserves_state_witness :
    ((load_csv DMState.init (fun _ => none) none).1 = false
      ∧ (load_csv DMState.init (fun _ => none) none).2.1 = DMState.init)
    ∧ ((load_csv DMState.init (fun _ => none) (some "a.csv")).1 = false
      ∧ (load_csv DMState.init (fun _ => none) (some "a.csv")).2.1 = DMState.init)
    ∧ ((load_csv DMState.init (fun _ => some none) (some "a.csv")).1 = false
      ∧ (load_csv DMState.init (fun _ => some none) (some "a.csv")).2.1 = DMState.init)
    ∧ ((load_csv DMState.init (fun _ => some (some ⟨["id"], []⟩)) (some "a.csv")).1 = false
      ∧ (load_csv DMState.init (fun _ => some (some ⟨["id"], []⟩)) (some "a.csv")).2.1
          = DMState.init) :=
  ⟨load_csv_failure_preserves_state DMState.init (fun _ => none) none (Or.inl rfl),
   load_csv_failure_preserves_state DMState.init (fun _ => none) (some "a.csv")
     (Or.inr (Or.inl ⟨"a.csv", rfl, rfl⟩)),
   load_csv_failure_preserves_state DMState.init (fun _ => some none) (some "a.csv")
     (Or.inr (Or.inr (Or.inl ⟨"a.csv", rfl, rfl⟩))),
   load_csv_failure_preserves_state DMState.init (fun _ => some (some ⟨["id"], []⟩))
     (some "a.csv")
     (Or.inr (Or.inr (Or.inr ⟨"a.csv", ⟨["id"], []⟩, rfl, rfl, by decide⟩)))⟩

/-- C5: on a loaded non-empty dataframe `next_item` increments
`current_index`, emits the row at the new index and returns `True` when
not at the last row, and returns `False` with the state unchanged at the
last row; `previous_item` symmetrically; both return `False` when no
dataframe is loaded or the dataframe is empty. -/
theorem next_previous_item_spec (st : DMState) (df : DataFrame)
    (hdf : st.dataframe = some df) (hne : df.rows ≠ []) :
    (st.current_index < (df.rows.length : ℤ) - 1 →
      next_item st = (true, { st with current_index := st.current_index + 1 },
        [Event.currentItemChanged (df.rows.getD (st.current_index + 1).toNat [])]))
    ∧ (st.current_index = (df.rows.length : ℤ) - 1 → next_item st = (false, st, []))
    ∧ (0 < st.current_index →
      previous_item st = (true, { st with current_index := st.current_index - 1 },
        [Event.currentItemChanged (df.rows.getD (st.current_index - 1).toNat [])]))
    ∧ (st.current_index = 0 → previous_item st = (false, st, []))
    ∧ (∀ st2 : DMState, st2.dataframe = none →
        next_item st2 = (false, st2, []) ∧ previous_item st2 = (false, st2, []))
    ∧ (∀ st2 : DMState, ∀ df2 : DataFrame, st2.dataframe = some df2 → df2.rows = [] →
        next_item st2 = (false, st2, []) ∧ previous_item st2 = (false, st2, [])) := by
  have hemp : df.rows.isEmpty = false := by
    cases h : df.rows with
    | nil => exact absurd h hne
    | cons x t => rfl
  refine ⟨?_, ?_, ?_, ?_, ?_, ?_⟩
  · intro hlt
    simp [next_item, hdf, hemp, hlt]
  · intro heq
    simp [next_item, hdf, hemp, heq]
  · intro hpos
    simp [previous_item, hdf, hemp, hpos]
  · intro heq
    simp [previous_item, hdf, hemp, heq]
  · intro st2 h2
    exact ⟨by simp [next_item, h2], by simp [previous_item, h2]⟩
  · intro st2 df2 h2 hrows
    constructor
    · simp [next_item, h2, hrows]
    · simp [previous_item, h2, hrows]

/-- C5 witness: on the two-row dataframe at index `0`, `next_item`
advances to index `1` emitting the second row, and `previous_item`
refuses leaving the state unchanged. -/
theorem next_previous_item_spec_witness :
    next_item dmTwoRows =
      (true, { dmTwoRows with current_index := 1 },
       [Event.currentItemChanged [Value.vStr "2"]])
    ∧ previous_item dmTwoRows = (false, dmTwoRows, []) := by
  have h := next_previous_item_spec dmTwoRows dfTwoRows rfl (by decide)
  exact ⟨(h.1 (by decide)).trans (by decide), h.2.2.2.1 rfl⟩

/-- C6: when the `os.makedirs` calls succeed,
`create_output_directory` creates under `base_dir` a directory named
`date_YYYYMMDD _ language _ style _ speaker _ time_HHMMSS` (underscore
joined) together with its `48khz` and `8khz` subdirectories, stores it
in `output_dir` and returns it; when directory creation raises it
returns `None`. -/
theorem create_output_directory_spec (st : DMState)
    (language style speaker date_str timestamp : String) :
    (create_output_directory st language style speaker date_str timestamp true =
      (some (st.base_dir ++ "/" ++
          (date_str ++ "_" ++ language ++ "_" ++ style ++ "_" ++ speaker ++ "_" ++ timestamp)),
       { st with output_dir := some (st.base_dir ++ "/" ++
          (date_str ++ "_" ++ language ++ "_" ++ style ++ "_" ++ speaker ++ "_" ++ timestamp)) },
       [st.base_dir ++ "/" ++
          (date_str ++ "_" ++ language ++ "_" ++ style ++ "_" ++ speaker ++ "_" ++ timestamp),
        st.base_dir ++ "/" ++
          (date_str ++ "_" ++ language ++ "_" ++ style ++ "_" ++ speaker ++ "_" ++ timestamp)
          ++ "/48khz",
        st.base_dir ++ "/" ++
          (date_str ++ "_" ++ language ++ "_" ++ style ++ "_" ++ speaker ++ "_" ++ timestamp)
          ++ "/8khz"], []))
    ∧ (create_output_directory st language style speaker date_str timestamp false).1 = none :=
  ⟨rfl, rfl⟩

/-- C8: in the playback loop, an iteration that reads the pause flag as
true writes no samples and leaves `current_sample` unchanged; once the
stop flag reads true at the loop-condition check the loop returns, so
no further samples are ever written; and the recording poll loop exits
as soon as a poll of `is_recording` reads false. -/
theorem polling_loops_spec (env : PBEnv) (audio : List ℤ) (sr fuel t cur : ℕ)
    (written : List ℤ) :
    (env.stopFlag t = false → cur < audio.length → env.pausedFlag t = true →
      playback_run env audio sr (fuel + 1) t cur written =
        playback_run env audio sr fuel (t + 1) cur written)
    ∧ (env.stopFlag t = true →
        playback_run env audio sr (fuel + 1) t cur written = (cur, written))
    ∧ (∀ flag : ℕ → Bool, flag t = false →
        record_poll_loop flag (fuel + 1) t = some t) := by
  refine ⟨?_, ?_, ?_⟩
  · intro hstop hcur hpause
    rw [playback_run]
    rw [if_neg (by simp [hstop]; omega), if_pos hpause]
  · intro hstop
    rw [playback_run, if_pos (Or.inl hstop)]
  · intro flag hflag
    rw [record_poll_loop, if_pos hflag]

/-- C8 witness: with a trace whose flags read pause = true, stop = false
at iteration 0, one loop step neither writes nor advances; with stop
reading true the loop returns at once; and the recording poll loop exits
at poll 0 when the flag reads false there. -/
theorem polling_loops_spec_witness :
    (playback_run ⟨fun _ => false, fun _ => true, fun _ => none⟩ [1, 2] 10 3 0 0 [] =
      playback_run ⟨fun _ => false, fun _ => true, fun _ => none⟩ [1, 2] 10 2 1 0 [])
    ∧ (playback_run ⟨fun _ => true, fun _ => false, fun _ => none⟩ [1, 2] 10 3 0 0 [] =
        (0, []))
    ∧ (record_poll_loop (fun _ => false) 3 0 = some 0) := by
  have h := polling_loops_spec ⟨fun _ => false, fun _ => true, fun _ => none⟩ [1, 2] 10 2 0 0 []
  have h2 := polling_loops_spec ⟨fun _ => true, fun _ => false, fun _ => none⟩ [1, 2] 10 2 0 0 []
  exact ⟨h.1 rfl (by decide) rfl, h2.2.1 rfl, h2.2.2 (fun _ => false) rfl⟩

/-- C7: with `enable_8k` set and an 8 kHz device supplied,
`start_recording` followed by `_record_audio` opens two input streams —
48000 Hz feeding `frames_48k` and 8000 Hz feeding `frames_8k` — whose
callbacks append chunks to those separate buffers; with `enable_8k`
unset only the 48 kHz stream is opened, `device_8k` and `filename_8k`
are set to `None`, and `stop_recording` saves no 8 kHz file. -/
theorem dual_stream_recording_spec (st : RecState) (d48 d8 : Option ℤ) (i8 : ℤ)
    (f48 f8 : Option String)
    (hrec : st.is_recording = false)
    (hr48 : st.rate_48k = 48000) (hr8 : st.rate_8k = 8000) :
    (st.enable_8k = true →
      record_audio_streams (start_recording st d48 (some i8) f48 f8) =
        [⟨d48, 48000, BufTarget.b48⟩, ⟨some i8, 8000, BufTarget.b8⟩])
    ∧ (∀ (st2 : RecState) (c : Chunk),
        (callback_48k st2 c).frames_48k = st2.frames_48k ++ [c]
        ∧ (callback_48k st2 c).frames_8k = st2.frames_8k
        ∧ (callback_8k st2 c).frames_8k = st2.frames_8k ++ [c]
        ∧ (callback_8k st2 c).frames_48k = st2.frames_48k)
    ∧ (st.enable_8k = false →
        record_audio_streams (start_recording st d48 d8 f48 f8) =
          [⟨d48, 48000, BufTarget.b48⟩]
        ∧ (start_recording st d48 d8 f48 f8).device_8k = none
        ∧ (start_recording st d48 d8 f48 f8).filename_8k = none)
    ∧ (∀ st3 : RecState, st3.filename_8k = none → st3.rate_48k = 48000 →
        ∀ w ∈ stop_recording_saves st3, w.2.2 = 48000) := by
  refine ⟨?_, ?_, ?_, ?_⟩
  · intro h8
    simp [start_recording, record_audio_streams, hrec, h8, hr48, hr8]
  · intro st2 c
    exact ⟨rfl, rfl, rfl, rfl⟩
  · intro h8
    refine ⟨?_, ?_, ?_⟩
    · simp [start_recording, record_audio_streams, hrec, h8, hr48]
    · simp [start_recording, hrec, h8]
    · simp [start_recording, hrec, h8]
  · intro st3 h3 hr3 w hw
    simp only [stop_recording_saves, h3, List.append_nil] at hw
    rcases hf : st3.filename_48k with _ | f
    · rw [hf] at hw
      simp at hw
    · rw [hf] at hw
      cases hfr : st3.frames_48k.isEmpty
      · rw [hfr] at hw
        simp only [Bool.false_eq_true, if_false, List.mem_singleton] at hw
        subst hw
        exact hr3
      · rw [hfr] at hw
        simp at hw

/-- C7 witness: starting from the freshly initialised recorder with
`enable_8k` toggled on, recording on devices `1` (48 kHz) and `2`
(8 kHz) opens exactly the two streams; the same initial state with the
toggle off opens only the 48 kHz stream. -/
theorem dual_stream_recording_spec_witness :
    record_audio_streams
        (start_recording { RecState.init with enable_8k := true }
          (some 1) (some 2) (some "a.wav") (some "b.wav")) =
      [⟨some 1, 48000, BufTarget.b48⟩, ⟨some 2, 8000, BufTarget.b8⟩]
    ∧ record_audio_streams
        (start_recording RecState.init (some 1) (some 2) (some "a.wav") (some "b.wav")) =
      [⟨some 1, 48000, BufTarget.b48⟩] :=
  ⟨(dual_stream_recording_spec { RecState.init with enable_8k := true }
      (some 1) (some 2) 2 (some "a.wav") (some "b.wav") rfl rfl rfl).1 rfl,
   ((dual_stream_recording_spec RecState.init
      (some 1) (some 2) 2 (some "a.wav") (some "b.wav") rfl rfl rfl).2.2.1 rfl).1⟩

/-- C9: `upload_recording` returns `False` with no HTTP request when
there is no current item or its 48 kHz audio path is empty or names no
existing file; otherwise it performs exactly one HTTP POST and returns
`True` — updating the current item with `uploaded = True` through
`update_current_item` — precisely when the response is ok; on a non-ok
response or a raised request it returns `False` with the `DataManager`
unchanged. -/
theorem upload_recording_spec (dm : DMState) (fileExists : String → Bool)
    (resp : UploadResult) :
    (get_current_item dm = none →
      upload_recording dm fileExists resp = (false, dm, 0))
    ∧ (∀ df row, dm.dataframe = some df → get_current_item dm = some row →
        (row_get_str df.cols row "audio_path_48k" = ""
          ∨ fileExists (row_get_str df.cols row "audio_path_48k") = false) →
        upload_recording dm fileExists resp = (false, dm, 0))
    ∧ (∀ df row, dm.dataframe = some df → get_current_item dm = some row →
        row_get_str df.cols row "audio_path_48k" ≠ "" →
        fileExists (row_get_str df.cols row "audio_path_48k") = true →
        (upload_recording dm fileExists resp).2.2 = 1
        ∧ ((upload_recording dm fileExists resp).1 = true ↔ resp = UploadResult.ok)
        ∧ (resp = UploadResult.ok →
            (upload_recording dm fileExists resp).2.1 =
              (update_current_item dm [("uploaded", Value.vBool true)]).2.1)
        ∧ (resp ≠ UploadResult.ok →
            (upload_recording dm fileExists resp).2.1 = dm)) := by
  refine ⟨?_, ?_, ?_⟩
  · intro hnone
    rcases hdf : dm.dataframe with _ | df
    · simp [upload_recording, hdf]
    · simp [upload_recording, hdf, hnone]
  · intro df row hdf hrow hbad
    simp only [upload_recording, hdf, hrow]
    rw [if_pos hbad]
  · intro df row hdf hrow hp hex
    have hcond : ¬ (row_get_str df.cols row "audio_path_48k" = ""
        ∨ fileExists (row_get_str df.cols row "audio_path_48k") = false) := by
      rintro (h | h)
      · exact hp h
      · rw [hex] at h
        cases h
    cases resp with
    | ok =>
      refine ⟨?_, ?_, ?_, ?_⟩
      · simp only [upload_recording, hdf, hrow]
        rw [if_neg hcond]
      · simp only [upload_recording, hdf, hrow]
        rw [if_neg hcond]
        simp
      · intro _
        simp only [upload_recording, hdf, hrow]
        rw [if_neg hcond]
      · intro h
        exact absurd rfl h
    | notOk =>
      refine ⟨?_, ?_, ?_, ?_⟩
      · simp only [upload_recording, hdf, hrow]
        rw [if_neg hcond]
      · simp only [upload_recording, hdf, hrow]
        rw [if_neg hcond]
        simp
      · intro h
        cases h
      · intro _
        simp only [upload_recording, hdf, hrow]
        rw [if_neg hcond]
    | raised =>
      refine ⟨?_, ?_, ?_, ?_⟩
      · simp only [upload_recording, hdf, hrow]
        rw [if_neg hcond]
      · simp only [upload_recording, hdf, hrow]
        rw [if_neg hcond]
        simp
      · intro h
        cases h
      · intro _
        simp only [upload_recording, hdf, hrow]
        rw [if_neg hcond]

/-- C9 witness: with the current item's 48 kHz file present, an ok
response performs one POST, returns `True` and routes the
`uploaded = True` update through `update_current_item`; on the
initial state (no item) nothing is posted. -/
theorem upload_recording_spec_witness :
    ((upload_recording dmUpd (fun _ => true) UploadResult.ok).2.2 = 1
      ∧ (upload_recording dmUpd (fun _ => true) UploadResult.ok).1 = true
      ∧ (upload_recording dmUpd (fun _ => true) UploadResult.ok).2.1 =
          (update_current_item dmUpd [("uploaded", Value.vBool true)]).2.1)
    ∧ upload_recording DMState.init (fun _ => true) UploadResult.ok =
        (false, DMState.init, 0) := by
  have h := (upload_recording_spec dmUpd (fun _ => true) UploadResult.ok).2.2
    dfUpd [Value.vStr "1", Value.vStr "a", Value.vBool false, Value.vStr "p1.wav"]
    rfl (by decide) (by decide) rfl
  have h0 := (upload_recording_spec DMState.init (fun _ => true) UploadResult.ok).1 rfl
  exact ⟨⟨h.1, h.2.1.2 rfl, h.2.2.1 rfl⟩, h0⟩

/-- Cells whose column name is not a key of `data_dict` are untouched
by the update loop of `update_current_item`. -/
theorem applyDict_getElem?_of_not_key (cols : List String) (row : List Value)
    (dd : List (String × Value)) (c : ℕ) (_hc : c < cols.length)
    (hno : ∀ kv ∈ dd, kv.1 ≠ cols.getD c "") :
    (applyDict cols row dd)[c]? = row[c]? := by
  induction dd generalizing row with
  | nil => rfl
  | cons kv tl ih =>
    have hstep : applyDict cols row (kv :: tl) =
        applyDict cols
          (if cols.contains kv.1 then row.set (cols.indexOf kv.1) kv.2 else row) tl := rfl
    rw [hstep, ih _ (fun kv' h' => hno kv' (List.mem_cons_of_mem _ h'))]
    by_cases hct : cols.contains kv.1
    · rw [if_pos hct]
      apply List.getElem?_set_ne
      intro heq
      have hmem : kv.1 ∈ cols := by
        simpa using hct
      have hidx : cols.indexOf kv.1 < cols.length := List.indexOf_lt_length.2 hmem
      have hval : cols[cols.indexOf kv.1] = kv.1 := List.getElem_indexOf hidx
      have hgd : cols.getD c "" = kv.1 := by
        rw [← heq, List.getD_eq_getElem cols "" hidx]
        exact hval
      exact hno kv (List.mem_cons_self _ _) hgd.symm
    · rw [if_neg hct]

/-- C3: with a loaded dataframe and `current_index` in range,
`update_current_item` returns `True` and modifies only the row at
`current_index` — and within it only cells whose column name is a key
of `data_dict` — leaving every other row, the column list and the row
count unchanged; when `csv_path` is set, the entire updated dataframe
is written back to exactly that one file, and no file is written
otherwise. -/
theorem update_current_item_frame (st : DMState) (df : DataFrame)
    (dd : List (String × Value))
    (hdf : st.dataframe = some df)
    (h0 : 0 ≤ st.current_index) (hlen : st.current_index < (df.rows.length : ℤ)) :
    ∃ df', (update_current_item st dd).1 = true
      ∧ (update_current_item st dd).2.1.dataframe = some df'
      ∧ df'.cols = df.cols
      ∧ df'.rows.length = df.rows.length
      ∧ (∀ j : ℕ, j ≠ st.current_index.toNat → df'.rows[j]? = df.rows[j]?)
      ∧ (∀ c : ℕ, c < df.cols.length → (∀ kv ∈ dd, kv.1 ≠ df.cols.getD c "") →
          (df'.rows.getD st.current_index.toNat [])[c]? =
            (df.rows.getD st.current_index.toNat [])[c]?)
      ∧ (∀ p, st.csv_path = some p → (update_current_item st dd).2.2 = [(p, df')])
      ∧ (st.csv_path = none → (update_current_item st dd).2.2 = []) := by
  have hlen' : st.current_index.toNat < df.rows.length := by omega
  have hemp : df.rows.isEmpty = false := by
    cases h : df.rows with
    | nil => rw [h] at hlen'; simp at hlen'
    | cons x t => rfl
  have hrange : 0 ≤ st.current_index ∧ st.current_index < (df.rows.length : ℤ) :=
    ⟨h0, hlen⟩
  refine ⟨{ cols := df.cols,
            rows := df.rows.set st.current_index.toNat
              (applyDict df.cols (df.rows.getD st.current_index.toNat []) dd) }, ?_⟩
  rcases hcsv : st.csv_path with _ | p
  · refine ⟨?_, ?_, rfl, List.length_set df.rows _ _, ?_, ?_, ?_, ?_⟩
    · simp [update_current_item, hdf, hemp, hrange, hcsv]
    · simp [update_current_item, hdf, hemp, hrange, hcsv]
    · intro j hj
      exact List.getElem?_set_ne (fun h => hj h.symm)
    · intro c hcc hno
      rw [List.getD_eq_getElem?_getD, List.getElem?_set_self _, Option.getD_some,
        applyDict_getElem?_of_not_key df.cols _ dd c hcc hno]
      exact hlen'
    · intro p hp
      exact Option.noConfusion hp
    · intro _
      simp [update_current_item, hdf, hemp, hrange, hcsv]
  · refine ⟨?_, ?_, rfl, List.length_set df.rows _ _, ?_, ?_, ?_, ?_⟩
    · simp [update_current_item, hdf, hemp, hrange, hcsv, save_csv]
    · simp [update_current_item, hdf, hemp, hrange, hcsv, save_csv]
    · intro j hj
      exact List.getElem?_set_ne (fun h => hj h.symm)
    · intro c hcc hno
      rw [List.getD_eq_getElem?_getD, List.getElem?_set_self _, Option.getD_some,
        applyDict_getElem?_of_not_key df.cols _ dd c hcc hno]
      exact hlen'
    · intro q hq
      cases hq
      simp [update_current_item, hdf, hemp, hrange, hcsv, save_csv]
    · intro h
      exact Option.noConfusion h

/-- C3 witness: updating `recorded` of row `0` of the concrete two-row
frame succeeds, leaves row `1` and the `text` cell of row `0`
untouched, and writes the whole updated dataframe back to `d.csv`. -/
theorem update_current_item_frame_witness :
    (update_current_item dmUpd [("recorded", Value.vBool true)]).1 = true
    ∧ (update_current_item dmUpd [("recorded", Value.vBool true)]).2.1.dataframe =
        some ⟨["id", "text", "recorded", "audio_path_48k"],
          [[Value.vStr "1", Value.vStr "a", Value.vBool true, Value.vStr "p1.wav"],
           [Value.vStr "2", Value.vStr "b", Value.vBool false, Value.vStr "p2.wav"]]⟩
    ∧ (update_current_item dmUpd [("recorded", Value.vBool true)]).2.2 =
        [("d.csv", ⟨["id", "text", "recorded", "audio_path_48k"],
          [[Value.vStr "1", Value.vStr "a", Value.vBool true, Value.vStr "p1.wav"],
           [Value.vStr "2", Value.vStr "b", Value.vBool false, Value.vStr "p2.wav"]]⟩)] := by
  obtain ⟨df', h1, h2, h3, h4, h5, h6, h7, h8⟩ :=
    update_current_item_frame dmUpd dfUpd [("recorded", Value.vBool true)]
      rfl (by decide) (by decide)
  have hdf' : some df' =
      some (⟨["id", "text", "recorded", "audio_path_48k"],
        [[Value.vStr "1", Value.vStr "a", Value.vBool true, Value.vStr "p1.wav"],
         [Value.vStr "2", Value.vStr "b", Value.vBool false, Value.vStr "p2.wav"]]⟩ :
        DataFrame) := by
    rw [← h2]
    decide
  cases hdf'
  exact ⟨h1, h2, h7 "d.csv" rfl⟩

/-- `contains` distributes over list append. -/
theorem contains_append_eq (l1 l2 : List String) (a : String) :
    (l1 ++ l2).contains a = (l1.contains a || l2.contains a) := by
  simp

/-- The optional-column loop appends exactly the missing optional
columns, in order, and extends every row with their default values
(column names pairwise distinct). -/
theorem addOptionalColumns_eq (cs : List (String × Value)) (df : DataFrame)
    (hnd : cs.Pairwise (fun a b => a.1 ≠ b.1)) :
    addOptionalColumns cs df =
      ⟨df.cols ++ (cs.filter (fun kv => !df.cols.contains kv.1)).map Prod.fst,
       df.rows.map (fun r => r ++ (cs.filter (fun kv => !df.cols.contains kv.1)).map Prod.snd)⟩ := by
  induction cs generalizing df with
  | nil =>
    cases df with
    | mk cols rows => simp [addOptionalColumns]
  | cons kv tl ih =>
    have hstep : addOptionalColumns (kv :: tl) df =
        addOptionalColumns tl
          (if df.cols.contains kv.1 then df else addColumn df kv.1 kv.2) := rfl
    have hkv := (List.pairwise_cons.1 hnd).1
    have hnd2 := (List.pairwise_cons.1 hnd).2
    rw [hstep]
    by_cases hc : df.cols.contains kv.1
    · rw [if_pos hc, ih _ hnd2]
      have hmem : kv.1 ∈ df.cols := by simpa using hc
      rw [List.filter_cons_of_neg (by simp [hmem])]
    · rw [if_neg hc, ih _ hnd2]
      have hcmem : kv.1 ∉ df.cols := by simpa using hc
      have hfilt : tl.filter (fun kv' => !(addColumn df kv.1 kv.2).cols.contains kv'.1) =
          tl.filter (fun kv' => !df.cols.contains kv'.1) := by
        apply List.filter_congr
        intro kv' h'
        have hne2 : kv'.1 ≠ kv.1 := fun h => (hkv kv' h') h.symm
        simp [addColumn, hne2]
      rw [hfilt, List.filter_cons_of_pos (by simp [hcmem])]
      refine congrArg₂ DataFrame.mk ?_ ?_
      · simp [addColumn]
      · simp [addColumn, Function.comp, List.map_map]

/-- C2 counterexample: loading a CSV holding only the required columns
`id` and `text` succeeds, yet the resulting in-memory dataframe has no
`uploaded` column — `uploaded` is absent from
`DataManager.optional_columns`, so `load_csv` never adds it. -/
theorem load_csv_no_uploaded_column :
    (load_csv DMState.init fsIdTextOnly (some "data.csv")).1 = true
    ∧ ((load_csv DMState.init fsIdTextOnly (some "data.csv")).2.1.dataframe.getD
        ⟨[], []⟩).cols.contains "uploaded" = false := by
  decide

/-- C2 (amended): after `load_csv` succeeds, the dataframe's columns
are the file's columns followed by the missing members of
{recorded, audio_path_48k, audio_path_8k, duration, trimmed} in order,
each added column filled with its default value in every row; the
required and the five optional columns are all present, but `uploaded`
is present only when the file itself carries it. -/
theorem load_csv_columns_spec (st : DMState) (fs : CsvFS) (p : String) (df0 : DataFrame)
    (hfs : fs p = some (some df0))
    (hreq : required_columns.all (fun c => df0.cols.contains c) = true) :
    (load_csv st fs (some p)).1 = true
    ∧ (load_csv st fs (some p)).2.1.dataframe =
        some ⟨df0.cols ++
            (optional_columns.filter (fun kv => !df0.cols.contains kv.1)).map Prod.fst,
          df0.rows.map (fun r => r ++
            (optional_columns.filter (fun kv => !df0.cols.contains kv.1)).map Prod.snd)⟩
    ∧ (∀ c ∈ required_columns,
        ((load_csv st fs (some p)).2.1.dataframe.getD ⟨[], []⟩).cols.contains c = true)
    ∧ (∀ kv ∈ optional_columns,
        ((load_csv st fs (some p)).2.1.dataframe.getD ⟨[], []⟩).cols.contains kv.1 = true)
    ∧ ((load_csv st fs (some p)).2.1.dataframe.getD ⟨[], []⟩).cols.contains "uploaded" =
        df0.cols.contains "uploaded" := by
  have hadd := addOptionalColumns_eq optional_columns df0 (by decide)
  have hload : load_csv st fs (some p) =
      (true,
        { st with dataframe := some (addOptionalColumns optional_columns df0),
                  csv_path := some p, current_index := 0,
                  total_audio_count := recordedSum (addOptionalColumns optional_columns df0),
                  total_duration := durationSum (addOptionalColumns optional_columns df0) },
        [Event.dataLoaded (addOptionalColumns optional_columns df0)] ++
          (if (addOptionalColumns optional_columns df0).rows.isEmpty then []
           else [Event.currentItemChanged
              ((addOptionalColumns optional_columns df0).rows.headD [])])) := by
    have hreq2 : ∀ x ∈ required_columns, x ∈ df0.cols := by
      intro x hx
      have := List.all_eq_true.1 hreq x hx
      simpa using this
    simp only [load_csv, hfs]
    rw [hreq]
    simp
  refine ⟨by rw [hload], ?_, ?_, ?_, ?_⟩
  · rw [hload]
    simp only
    rw [hadd]
  · intro c hcmem
    rw [hload]
    simp only [Option.getD_some]
    rw [hadd]
    have hcc : c ∈ df0.cols := by
      have := List.all_eq_true.1 hreq c hcmem
      simpa using this
    simp [hcc]
  · intro kv hkv
    rw [hload]
    simp only [Option.getD_some]
    rw [hadd]
    by_cases hc : kv.1 ∈ df0.cols
    · simp [hc]
    · simp only [contains_append_eq]
      have hmem : kv.1 ∈ (optional_columns.filter
          (fun kv' => !df0.cols.contains kv'.1)).map Prod.fst :=
        List.mem_map.2 ⟨kv, List.mem_filter.2 ⟨hkv, by simp [hc]⟩, rfl⟩
      have hmb : ((optional_columns.filter
          (fun kv' => !df0.cols.contains kv'.1)).map Prod.fst).contains kv.1 = true := by
        simpa using hmem
      rw [hmb, Bool.or_true]
  · rw [hload]
    simp only [Option.getD_some]
    rw [hadd]
    have hnotopt : "uploaded" ∉ (optional_columns.filter
        (fun kv' => !df0.cols.contains kv'.1)).map Prod.fst := by
      intro hmem
      obtain ⟨kv, hkvf, hkv1⟩ := List.mem_map.1 hmem
      have hkvmem := (List.mem_filter.1 hkvf).1
      simp only [optional_columns, List.mem_cons, List.not_mem_nil, or_false] at hkvmem
      rcases hkvmem with rfl | rfl | rfl | rfl | rfl <;> exact absurd hkv1 (by decide)
    have hb : ((optional_columns.filter
        (fun kv' => !df0.cols.contains kv'.1)).map Prod.fst).contains "uploaded" = false := by
      cases hcb : ((optional_columns.filter
          (fun kv' => !df0.cols.contains kv'.1)).map Prod.fst).contains "uploaded"
      · rfl
      · exact absurd (by simpa using hcb) hnotopt
    rw [contains_append_eq, hb, Bool.or_false]

/-- C2 witness: loading the concrete `id,text`-only CSV succeeds and
produces exactly the file's columns followed by the five optional
columns with their default values. -/
theorem load_csv_columns_spec_witness :
    (load_csv DMState.init fsIdTextOnly (some "data.csv")).1 = true
    ∧ (load_csv DMState.init fsIdTextOnly (some "data.csv")).2.1.dataframe =
        some ⟨["id", "text", "recorded", "audio_path_48k", "audio_path_8k",
               "duration", "trimmed"],
          [[Value.vStr "1", Value.vStr "hello", Value.vBool false, Value.vStr "",
            Value.vStr "", Value.vRat 0, Value.vBool false]]⟩ := by
  have h := load_csv_columns_spec DMState.init fsIdTextOnly "data.csv" dfIdTextOnly
    (by decide) (by decide)
  exact ⟨h.1, h.2.1.trans (by decide)⟩

end TTSApp
